import Mathlib

/-!
Shallow embedding of `Improvyu/js/interview.js` (THINK-AI repository).

The file holds two browser scripts:
* the interview page proper (state `initialQuestions`, `conversationHistory`,
  `allUserAnswers`, `currentQuestionIndex`; handlers `handleJobRoleSubmit`,
  `askNextQuestion`, the speech-recognition `onend` callback inside
  `toggleRecording`, `endInterview`), modelled in namespace `Improvyu`;
* the landing/interview pages (`handleLandingPage`, `getDefaultQuestions`,
  `startInterview`, `askNextInitialQuestion`, `handleAnswerSubmission`,
  `endInterview`/`displayReport`), modelled in namespace `InterviewPage`.

Browser effects are made explicit: DOM mutations become fields of small
record types, `fetch` results become inductive types covering a rejected
promise (`thrown`), a non-ok response (`notOk`), and an ok JSON body (`ok`).
JavaScript's `x || d` on possibly-absent string fields is modelled by
`jsOr : Option String → String → String` (absent or empty string counts as
falsy).
-/

/-- One entry of `conversationHistory`: `{ role, parts: [{ text }] }`.
Every push in the source uses a single text part, so the entry is
flattened to a role and a text. -/
structure Msg where
  role : String
  text : String
deriving Repr, DecidableEq

/-- `x || d` for a possibly-absent JS string field: `undefined` and the
empty string are falsy. -/
def jsOr (x : Option String) (d : String) : String :=
  match x with
  | none => d
  | some s => if s = "" then d else s

/-- JS `String.prototype.trim()`: strip whitespace from both ends. -/
def jsTrim (s : String) : String :=
  ⟨((s.data.dropWhile Char.isWhitespace).reverse.dropWhile
      Char.isWhitespace).reverse⟩

/-- The mutable interview state shared by both scripts:
`initialQuestions`, `conversationHistory`, `allUserAnswers`,
`currentQuestionIndex`. -/
structure InterviewState where
  initialQuestions : List String
  conversationHistory : List Msg
  allUserAnswers : List String
  currentQuestionIndex : Nat
deriving Repr, DecidableEq

/-- The initial state: all lists empty, index 0 (lines 3-4 of the source). -/
def initState : InterviewState :=
  { initialQuestions := [], conversationHistory := [], allUserAnswers := [],
    currentQuestionIndex := 0 }

/-- Network requests issued by the front end, with the payload the code
actually sends. -/
inductive Request where
  | analyze (hasResume : Bool) (jobRole : String)
  | followUp (history : List Msg)
  | evaluate (answers : List String)
deriving Repr, DecidableEq

namespace Improvyu

/-- Result of `askNextQuestion`: either a question was asked (spoken and
pushed), or `endInterview` was invoked. -/
inductive AskResult where
  | asked (question : String)
  | ended
deriving Repr, DecidableEq

/-- `askNextQuestion` (interview.js lines 161-176): if
`currentQuestionIndex >= initialQuestions.length` call `endInterview`;
otherwise read the question at the current index, increment the index,
push a `model` entry onto `conversationHistory` and ask the question. -/
def askNextQuestion (st : InterviewState) : InterviewState × AskResult :=
  if h : st.currentQuestionIndex < st.initialQuestions.length then
    let question := st.initialQuestions.get ⟨st.currentQuestionIndex, h⟩
    ({ st with
        currentQuestionIndex := st.currentQuestionIndex + 1,
        conversationHistory :=
          st.conversationHistory ++ [⟨"model", question⟩] },
      AskResult.asked question)
  else
    (st, AskResult.ended)

/-- Running `askNextQuestion` repeatedly (the question/answer loop without
intervening answers), collecting the questions asked until `endInterview`
fires.  `fuel` bounds the recursion. -/
def runAskLoop : Nat → InterviewState → List String × InterviewState
  | 0, st => ([], st)
  | fuel + 1, st =>
    match askNextQuestion st with
    | (st', AskResult.asked q) =>
      let rest := runAskLoop fuel st'
      (q :: rest.1, rest.2)
    | (st', AskResult.ended) => ([], st')

/-- The DOM pieces `handleJobRoleSubmit` touches, with the initial page
values: upload section visible, interview container hidden, loader hidden,
job-role section visible (after file selection), no error text. -/
structure UploadUI where
  uploadSectionHidden : Bool
  interviewContainerHidden : Bool
  uploadLoaderHidden : Bool
  jobRoleSectionHidden : Bool
  uploadErrorText : String
  uploadErrorHidden : Bool
  selectResumeBtnDisabled : Bool
deriving Repr, DecidableEq

/-- The page as `handleJobRoleSubmit` finds it after a file was selected
(`handleFileSelection` disabled the select button and revealed the
job-role section). -/
def uploadUIStart : UploadUI :=
  { uploadSectionHidden := false, interviewContainerHidden := true,
    uploadLoaderHidden := true, jobRoleSectionHidden := false,
    uploadErrorText := "", uploadErrorHidden := true,
    selectResumeBtnDisabled := true }

/-- Outcome of one `fetch('/api/analyze', ...)` on the interview page:
the promise rejected (network failure) or `response.json()` threw,
carrying the thrown error's message; or the response arrived non-ok with
an optional `error` field; or it arrived ok with a `questions` array. -/
inductive AnalyzeResult where
  | thrown (msg : String)
  | notOk (err : Option String)
  | ok (questions : List String)
deriving Repr, DecidableEq

/-- What one invocation of `handleJobRoleSubmit` did: the interview state
and upload UI afterwards, the requests issued, whether the interview was
started (`initAvatar`/`setupMedia`/`setupSpeechSynthesis` ran), and
whether `alert` fired. -/
structure SubmitOutcome where
  state : InterviewState
  ui : UploadUI
  requests : List Request
  interviewStarted : Bool
  alerted : Bool
deriving Repr, DecidableEq

/-- `handleJobRoleSubmit` (interview.js lines 125-159).  Trims the
job-role input; an empty trim alerts and returns.  Otherwise it shows the
loader, hides the job-role section, clears the error text, and POSTs the
resume file and job role to `/api/analyze`.  On ok, `initialQuestions`
becomes `data.questions` and the upload section gives way to the
interview container.  On failure (`!response.ok` raises
`Error(data.error || 'Failed to analyze resume.')`; a rejected fetch or
JSON parse raises its own error), the catch hides the loader, shows the
error's message, and re-enables the select-resume button. -/
def handleJobRoleSubmit (st : InterviewState) (ui : UploadUI)
    (jobRoleRaw : String) (hasResume : Bool) (resp : AnalyzeResult) :
    SubmitOutcome :=
  let jobRole := jsTrim jobRoleRaw
  if jobRole = "" then
    { state := st, ui := ui, requests := [], interviewStarted := false,
      alerted := true }
  else
    let ui1 := { ui with
      uploadLoaderHidden := false, jobRoleSectionHidden := true,
      uploadErrorText := "" }
    let req := Request.analyze hasResume jobRole
    match resp with
    | AnalyzeResult.ok qs =>
      { state := { st with initialQuestions := qs },
        ui := { ui1 with
          uploadSectionHidden := true, interviewContainerHidden := false },
        requests := [req], interviewStarted := true, alerted := false }
    | AnalyzeResult.notOk err =>
      { state := st,
        ui := { ui1 with
          uploadLoaderHidden := true,
          uploadErrorText := jsOr err "Failed to analyze resume.",
          uploadErrorHidden := false, selectResumeBtnDisabled := false },
        requests := [req], interviewStarted := false, alerted := false }
    | AnalyzeResult.thrown msg =>
      { state := st,
        ui := { ui1 with
          uploadLoaderHidden := true, uploadErrorText := msg,
          uploadErrorHidden := false, selectResumeBtnDisabled := false },
        requests := [req], interviewStarted := false, alerted := false }

/-- Outcome of one `fetch('/api/follow-up', ...)`: rejected promise or
JSON failure with the error's message; non-ok response with optional
`error` field; or ok with an optional `question` field (`none` models an
absent field). -/
inductive FollowUpResult where
  | thrown (msg : String)
  | notOk (err : Option String)
  | ok (question : Option String)
deriving Repr, DecidableEq

/-- Outcome of an answer handler: the state afterwards, the requests
issued, and the (sender, text) lines appended to the visible conversation
log. -/
structure HandlerOutcome where
  state : InterviewState
  requests : List Request
  logged : List (String × String)
deriving Repr, DecidableEq

/-- The `speechRecognition.onend` callback installed by `toggleRecording`
(interview.js lines 201-231), up to the `setTimeout(askNextQuestion, 500)`
that always follows.  With an empty transcript nothing is recorded and no
request is made.  Otherwise the transcript is pushed onto both
`allUserAnswers` and `conversationHistory` (role `user`), logged, and
`/api/follow-up` is called with the updated history; if that yields a
truthy question different from `'[NEXT_QUESTION]'` it is spliced into
`initialQuestions` at `currentQuestionIndex` (JS `splice` clamps the
index to the length), and any failure is swallowed. -/
def onRecognitionEnd (st : InterviewState) (transcript : String)
    (resp : FollowUpResult) : HandlerOutcome :=
  if transcript = "" then
    { state := st, requests := [], logged := [] }
  else
    let hist1 := st.conversationHistory ++ [⟨"user", transcript⟩]
    let st1 := { st with
      allUserAnswers := st.allUserAnswers ++ [transcript],
      conversationHistory := hist1 }
    let st2 :=
      match resp with
      | FollowUpResult.ok (some q) =>
        if q = "" ∨ q = "[NEXT_QUESTION]" then st1
        else
          let spliced := List.insertIdx (min st1.currentQuestionIndex st1.initialQuestions.length) q st1.initialQuestions
          { st1 with initialQuestions := spliced }
      | _ => st1
    { state := st2, requests := [Request.followUp hist1],
      logged := [("You", transcript)] }

/-- A JSON evaluation report body: the four fields `displayReport` reads,
plus the `error` field the catch path reads.  `none` models an absent
field. -/
structure Report where
  overallScore : Option String
  strengths : Option String
  weaknesses : Option String
  suggestion : Option String
  error : Option String
deriving Repr, DecidableEq

/-- Outcome of one `fetch('/api/evaluate', ...)`. -/
inductive EvaluateResult where
  | thrown (msg : String)
  | notOk (err : Option String)
  | ok (report : Report)
deriving Repr, DecidableEq

/-- What `reportContent` ends up showing: a rendered report with the four
substituted fields, or a failure message. -/
inductive ReportView where
  | rendered (overallScore strengths weaknesses suggestion : String)
  | failure (msg : String)
deriving Repr, DecidableEq

/-- `endInterview` (interview.js lines 236-261): POST
`{ answers: allUserAnswers }` to `/api/evaluate`; on ok render the four
fields, each replaced by `'N/A'` when absent or falsy; on failure
(`throw new Error(report.error)` for non-ok — `new Error(undefined)` has
message `""` — or a rejected fetch) render the error line instead. -/
def endInterview (answers : List String) (resp : EvaluateResult) :
    Request × ReportView :=
  (Request.evaluate answers,
    match resp with
    | EvaluateResult.ok r =>
      ReportView.rendered (jsOr r.overallScore "N/A")
        (jsOr r.strengths "N/A") (jsOr r.weaknesses "N/A")
        (jsOr r.suggestion "N/A")
    | EvaluateResult.notOk err => ReportView.failure (err.getD "")
    | EvaluateResult.thrown msg => ReportView.failure msg)

/-- `audioDataArray.reduce((a, b) => a + b) / audioDataArray.length`
(interview.js line 59): the arithmetic mean of the frequency-bin byte
values, over ℚ. -/
def byteAvg (bytes : List Nat) : ℚ := (bytes.sum : ℚ) / bytes.length

/-- `const targetScale = 1 + (avg / 128.0) * 0.7` (interview.js
line 60). -/
def targetScale (avg : ℚ) : ℚ := 1 + avg / 128 * 0.7

/-- One `animateAvatar` frame with an active analyser (interview.js
lines 57-63): update `smoothedVolume` by
`smoothedVolume += (targetScale - smoothedVolume) * 0.2` and set the
avatar's `(x, y, z)` scale to the new `smoothedVolume`.  Returns the new
`smoothedVolume` and the scale triple. -/
def animateStep (smoothedVolume : ℚ) (bytes : List Nat) :
    ℚ × (ℚ × ℚ × ℚ) :=
  let t := targetScale (byteAvg bytes)
  let s := smoothedVolume + (t - smoothedVolume) * 0.2
  (s, (s, s, s))

end Improvyu

/-- `getDefaultQuestions` (interview.js lines 297-305): the hard-coded
question list the front end falls back on when the backend provides
none. -/
def getDefaultQuestions : List String :=
  [ "Tell me about a challenging project recently completed. What was the goal and outcome?",
    "Walk through the design of a REST API built recently. What trade-offs were considered?",
    "How is time complexity analyzed for a function that uses nested loops?",
    "Explain how to diagnose and fix a memory leak in a Node/JS or Python service.",
    "What is the difference between processes and threads, and when to use each?" ]

namespace InterviewPage

/-- Outcome of the landing page's `fetch('/api/analyze', ...)`: rejected
or JSON failure; non-ok with optional `error`; or ok where
`data.questions` is an array (`some qs`) or absent/not an array
(`none`). -/
inductive LandingAnalyzeResult where
  | thrown (msg : String)
  | notOk (err : Option String)
  | ok (questions : Option (List String))
deriving Repr, DecidableEq

/-- The interview-branch of the landing page's submit handler
(interview.js lines 370-411): the question list stored into
`sessionStorage` under `interviewQuestions` before redirecting to
`/interview.html`.  Ok responses keep `data.questions` only when it is a
non-empty array, otherwise `getDefaultQuestions()`; any error falls back
to `getDefaultQuestions()` (the fallback is non-empty, so the redirect
always happens). -/
def handleLandingSubmit (resp : LandingAnalyzeResult) : List String :=
  match resp with
  | LandingAnalyzeResult.ok (some qs) =>
    if qs.length ≠ 0 then qs else getDefaultQuestions
  | LandingAnalyzeResult.ok none => getDefaultQuestions
  | LandingAnalyzeResult.notOk _ => getDefaultQuestions
  | LandingAnalyzeResult.thrown _ => getDefaultQuestions

/-- `startInterview` (interview.js lines 432-440): `initialQuestions`
becomes the `sessionStorage` list when present, else
`getDefaultQuestions()`. -/
def startInterview (stored : Option (List String)) : List String :=
  match stored with
  | none => getDefaultQuestions
  | some qs => qs

/-- `askNextInitialQuestion` (interview.js lines 450-460): while
`currentQuestionIndex < initialQuestions.length`, show the question at
the index, push a `model` entry, and increment the index; otherwise call
`endInterview`. -/
def askNextInitialQuestion (st : InterviewState) :
    InterviewState × Improvyu.AskResult :=
  if h : st.currentQuestionIndex < st.initialQuestions.length then
    let question := st.initialQuestions.get ⟨st.currentQuestionIndex, h⟩
    ({ st with
        conversationHistory :=
          st.conversationHistory ++ [⟨"model", question⟩],
        currentQuestionIndex := st.currentQuestionIndex + 1 },
      Improvyu.AskResult.asked question)
  else
    (st, Improvyu.AskResult.ended)

/-- `handleAnswerSubmission` (interview.js lines 462-499).  An answer
trimming to `""` returns at once.  Otherwise the answer is logged and
pushed onto `allUserAnswers` and `conversationHistory`, and
`/api/follow-up` is called: a `'[NEXT_QUESTION]'` reply moves to the next
initial question; any other reply (the code compares with `===`, so even
an absent or empty `question` lands here — an absent one is rendered by
string coercion as `"undefined"`) is shown and pushed as a `model`
entry; a failed request shows the error and moves to the next initial
question. -/
def handleAnswerSubmission (st : InterviewState) (answerRaw : String)
    (resp : Improvyu.FollowUpResult) : Improvyu.HandlerOutcome :=
  let answer := jsTrim answerRaw
  if answer = "" then
    { state := st, requests := [], logged := [] }
  else
    let hist1 := st.conversationHistory ++ [⟨"user", answer⟩]
    let st1 := { st with
      allUserAnswers := st.allUserAnswers ++ [answer],
      conversationHistory := hist1 }
    let req := Request.followUp hist1
    match resp with
    | Improvyu.FollowUpResult.ok (some q) =>
      if q = "[NEXT_QUESTION]" then
        let next := askNextInitialQuestion st1
        { state := next.1, requests := [req],
          logged := ("You", answer) ::
            (match next.2 with
            | Improvyu.AskResult.asked qq => [("AI", qq)]
            | Improvyu.AskResult.ended => []) }
      else
        { state := { st1 with
            conversationHistory := st1.conversationHistory ++ [⟨"model", q⟩] },
          requests := [req], logged := [("You", answer), ("AI", q)] }
    | Improvyu.FollowUpResult.ok none =>
      { state := { st1 with
          conversationHistory :=
            st1.conversationHistory ++ [⟨"model", "undefined"⟩] },
        requests := [req], logged := [("You", answer), ("AI", "undefined")] }
    | Improvyu.FollowUpResult.notOk _ =>
      let next := askNextInitialQuestion st1
      { state := next.1, requests := [req],
        logged := ("You", answer) ::
          (match next.2 with
          | Improvyu.AskResult.asked qq => [("AI", qq)]
          | Improvyu.AskResult.ended => []) }
    | Improvyu.FollowUpResult.thrown _ =>
      let next := askNextInitialQuestion st1
      { state := next.1, requests := [req],
        logged := ("You", answer) ::
          (match next.2 with
          | Improvyu.AskResult.asked qq => [("AI", qq)]
          | Improvyu.AskResult.ended => []) }

/-- `endInterview` + `displayReport` (interview.js lines 501-538): POST
`{ answers: allUserAnswers }` to `/api/evaluate`; on ok `displayReport`
renders the four fields, each replaced by `'N/A'` when absent or falsy;
on failure the error message is shown instead of a report. -/
def endInterview (answers : List String) (resp : Improvyu.EvaluateResult) :
    Request × Improvyu.ReportView :=
  (Request.evaluate answers,
    match resp with
    | Improvyu.EvaluateResult.ok r =>
      Improvyu.ReportView.rendered (jsOr r.overallScore "N/A")
        (jsOr r.strengths "N/A") (jsOr r.weaknesses "N/A")
        (jsOr r.suggestion "N/A")
    | Improvyu.EvaluateResult.notOk err =>
      Improvyu.ReportView.failure (err.getD "")
    | Improvyu.EvaluateResult.thrown msg => Improvyu.ReportView.failure msg)

end InterviewPage

/-- One handler invocation that can touch the interview state, with the
backend's answer where the handler performs a fetch.  `startAsk` is the
start-interview button (which calls `askNextQuestion`), `recordingEnd` is
the speech-recognition `onend` callback together with the
`setTimeout(askNextQuestion, 500)` it schedules. -/
inductive Event where
  | submitJobRole (jobRoleRaw : String) (hasResume : Bool)
      (resp : Improvyu.AnalyzeResult)
  | startAsk
  | recordingEnd (transcript : String) (resp : Improvyu.FollowUpResult)
  | askInitial
  | answerSubmit (answerRaw : String) (resp : Improvyu.FollowUpResult)

/-- The interview-state effect of one handler invocation. -/
def stepEvent (st : InterviewState) : Event → InterviewState
  | Event.submitJobRole j hr r =>
    (Improvyu.handleJobRoleSubmit st Improvyu.uploadUIStart j hr r).state
  | Event.startAsk => (Improvyu.askNextQuestion st).1
  | Event.recordingEnd t r =>
    (Improvyu.askNextQuestion (Improvyu.onRecognitionEnd st t r).state).1
  | Event.askInitial => (InterviewPage.askNextInitialQuestion st).1
  | Event.answerSubmit a r =>
    (InterviewPage.handleAnswerSubmission st a r).state

/-- Running a sequence of handler invocations from a state. -/
def runEvents (st : InterviewState) (es : List Event) : InterviewState :=
  es.foldl stepEvent st

/-- The texts of the `role = 'user'` entries of a conversation history,
in order. -/
def userTexts (h : List Msg) : List String :=
  (h.filter (fun m => m.role == "user")).map Msg.text

/-! ## Theorems -/

/-- Helper for C1: with enough fuel, the loop of `askNextQuestion` calls
asks exactly the questions from the current index on, in order — so each
list element is asked at most once before `endInterview` fires. -/
theorem runAskLoop_eq_drop (fuel : Nat) (st : InterviewState)
    (hf : st.initialQuestions.length - st.currentQuestionIndex ≤ fuel) :
    (Improvyu.runAskLoop fuel st).1 =
      st.initialQuestions.drop st.currentQuestionIndex := by
  induction fuel generalizing st with
  | zero =>
    have hle : st.initialQuestions.length ≤ st.currentQuestionIndex := by
      omega
    simp [Improvyu.runAskLoop, List.drop_eq_nil_of_le hle]
  | succ n ih =>
    by_cases h : st.currentQuestionIndex < st.initialQuestions.length
    · have hfuel :
        st.initialQuestions.length - (st.currentQuestionIndex + 1) ≤ n := by
        omega
      simp only [Improvyu.runAskLoop, Improvyu.askNextQuestion, dif_pos h]
      rw [ih _ hfuel]
      exact (List.drop_eq_getElem_cons h).symm
    · have hle : st.initialQuestions.length ≤ st.currentQuestionIndex := by
        omega
      simp [Improvyu.runAskLoop, Improvyu.askNextQuestion, dif_neg h,
        List.drop_eq_nil_of_le hle]

/-- C1: the interview is a question/answer loop over `initialQuestions`:
whenever `currentQuestionIndex < initialQuestions.length`,
`askNextQuestion` (and likewise `askNextInitialQuestion`) asks the
question at the current index, increments the index by exactly one, and
appends that question to `conversationHistory` with role `model`; the
handler ends the interview exactly when
`currentQuestionIndex ≥ initialQuestions.length`; and iterating the
handler asks each remaining list element exactly once, in order, before
the interview ends. -/
theorem C1_question_loop (st : InterviewState) :
    (∀ h : st.currentQuestionIndex < st.initialQuestions.length,
      Improvyu.askNextQuestion st =
        ({ st with
            currentQuestionIndex := st.currentQuestionIndex + 1,
            conversationHistory := st.conversationHistory ++
              [⟨"model", st.initialQuestions.get ⟨st.currentQuestionIndex, h⟩⟩] },
          Improvyu.AskResult.asked
            (st.initialQuestions.get ⟨st.currentQuestionIndex, h⟩)) ∧
      InterviewPage.askNextInitialQuestion st =
        ({ st with
            conversationHistory := st.conversationHistory ++
              [⟨"model", st.initialQuestions.get ⟨st.currentQuestionIndex, h⟩⟩],
            currentQuestionIndex := st.currentQuestionIndex + 1 },
          Improvyu.AskResult.asked
            (st.initialQuestions.get ⟨st.currentQuestionIndex, h⟩))) ∧
    ((Improvyu.askNextQuestion st).2 = Improvyu.AskResult.ended ↔
      st.initialQuestions.length ≤ st.currentQuestionIndex) ∧
    ((InterviewPage.askNextInitialQuestion st).2 = Improvyu.AskResult.ended ↔
      st.initialQuestions.length ≤ st.currentQuestionIndex) ∧
    (∀ fuel, st.initialQuestions.length - st.currentQuestionIndex ≤ fuel →
      (Improvyu.runAskLoop fuel st).1 =
        st.initialQuestions.drop st.currentQuestionIndex) := by
  refine ⟨fun h => ?_, ?_, ?_, fun fuel hf => runAskLoop_eq_drop fuel st hf⟩
  · constructor
    · simp [Improvyu.askNextQuestion, dif_pos h]
    · simp [InterviewPage.askNextInitialQuestion, dif_pos h]
  · by_cases h : st.currentQuestionIndex < st.initialQuestions.length
    · simp [Improvyu.askNextQuestion, dif_pos h]
      omega
    · simp [Improvyu.askNextQuestion, dif_neg h]
      omega
  · by_cases h : st.currentQuestionIndex < st.initialQuestions.length
    · simp [InterviewPage.askNextInitialQuestion, dif_pos h]
      omega
    · simp [InterviewPage.askNextInitialQuestion, dif_neg h]
      omega

/-- C1 witness: on the concrete two-question state, the first call asks
the first question and the loop asks both questions once each before
ending. -/
theorem C1_question_loop_witness :
    (Improvyu.askNextQuestion
        { initState with initialQuestions := ["q0", "q1"] }).2 =
      Improvyu.AskResult.asked "q0" ∧
    (Improvyu.runAskLoop 2
        { initState with initialQuestions := ["q0", "q1"] }).1 =
      ["q0", "q1"] := by
  constructor
  · rw [((C1_question_loop
      { initState with initialQuestions := ["q0", "q1"] }).1 (by decide)).1]
    rfl
  · exact (C1_question_loop
      { initState with initialQuestions := ["q0", "q1"] }).2.2.2 2 (by decide)

/-- C3: when the trimmed job role is non-empty and a resume file is
selected, `handleJobRoleSubmit` sends the resume and the job role to
`/api/analyze`, and on an ok response sets `initialQuestions` to the
response's `questions` array and swaps the upload section for the
interview container (loader shown, job-role section hidden, error text
cleared along the way). -/
theorem C3_analyze_success (st : InterviewState) (ui : Improvyu.UploadUI)
    (jobRoleRaw : String) (qs : List String)
    (hrole : jsTrim jobRoleRaw ≠ "") :
    Improvyu.handleJobRoleSubmit st ui jobRoleRaw true
        (Improvyu.AnalyzeResult.ok qs) =
      { state := { st with initialQuestions := qs },
        ui := { ui with
          uploadLoaderHidden := false, jobRoleSectionHidden := true,
          uploadErrorText := "", uploadSectionHidden := true,
          interviewContainerHidden := false },
        requests := [Request.analyze true (jsTrim jobRoleRaw)],
        interviewStarted := true, alerted := false } := by
  simp [Improvyu.handleJobRoleSubmit, if_neg hrole]

/-- C3 witness: a concrete successful submission. -/
theorem C3_analyze_success_witness :
    Improvyu.handleJobRoleSubmit initState Improvyu.uploadUIStart
        "engineer" true (Improvyu.AnalyzeResult.ok ["q0"]) =
      { state := { initState with initialQuestions := ["q0"] },
        ui := { Improvyu.uploadUIStart with
          uploadLoaderHidden := false, jobRoleSectionHidden := true,
          uploadErrorText := "", uploadSectionHidden := true,
          interviewContainerHidden := false },
        requests := [Request.analyze true "engineer"],
        interviewStarted := true, alerted := false } := by
  have h := C3_analyze_success initState Improvyu.uploadUIStart
    "engineer" ["q0"] (by decide)
  rw [h]
  rfl

/-- C5 counterexample: when the fetch itself rejects (network error),
the code displays the thrown error's own message (e.g. the browser's
`"Failed to fetch"`), not the claimed `'Failed to analyze resume.'`
default for an absent response error message. -/
theorem C5_network_error_counterexample :
    (Improvyu.handleJobRoleSubmit initState Improvyu.uploadUIStart
        "engineer" true
        (Improvyu.AnalyzeResult.thrown "Failed to fetch")).ui.uploadErrorText =
      "Failed to fetch" ∧
    "Failed to fetch" ≠ "Failed to analyze resume." := by
  exact ⟨rfl, by decide⟩

/-- C5 (amended): whenever the `/api/analyze` request fails,
`initialQuestions` (indeed the whole interview state) is unchanged, the
loader is hidden, the select-resume button is re-enabled, and the
interview is not started; the message shown in the upload-error element
is the response's `error` field (or `'Failed to analyze resume.'` when
that field is absent or empty) for a non-ok response, and the thrown
error's own message for a rejected fetch. -/
theorem C5_analyze_failure (st : InterviewState) (ui : Improvyu.UploadUI)
    (jobRoleRaw : String) (hasResume : Bool) (err : Option String)
    (msg : String) (hrole : jsTrim jobRoleRaw ≠ "") :
    Improvyu.handleJobRoleSubmit st ui jobRoleRaw hasResume
        (Improvyu.AnalyzeResult.notOk err) =
      { state := st,
        ui := { ui with
          uploadLoaderHidden := true, jobRoleSectionHidden := true,
          uploadErrorText := jsOr err "Failed to analyze resume.",
          uploadErrorHidden := false, selectResumeBtnDisabled := false },
        requests := [Request.analyze hasResume (jsTrim jobRoleRaw)],
        interviewStarted := false, alerted := false } ∧
    Improvyu.handleJobRoleSubmit st ui jobRoleRaw hasResume
        (Improvyu.AnalyzeResult.thrown msg) =
      { state := st,
        ui := { ui with
          uploadLoaderHidden := true, jobRoleSectionHidden := true,
          uploadErrorText := msg,
          uploadErrorHidden := false, selectResumeBtnDisabled := false },
        requests := [Request.analyze hasResume (jsTrim jobRoleRaw)],
        interviewStarted := false, alerted := false } := by
  constructor
  · simp [Improvyu.handleJobRoleSubmit, if_neg hrole]
  · simp [Improvyu.handleJobRoleSubmit, if_neg hrole]

/-- C5 witness: a concrete non-ok response with no `error` field shows
the default message and leaves the state intact. -/
theorem C5_analyze_failure_witness :
    (Improvyu.handleJobRoleSubmit initState Improvyu.uploadUIStart
        "engineer" true
        (Improvyu.AnalyzeResult.notOk none)).ui.uploadErrorText =
      "Failed to analyze resume." ∧
    (Improvyu.handleJobRoleSubmit initState Improvyu.uploadUIStart
        "engineer" true
        (Improvyu.AnalyzeResult.notOk none)).state = initState := by
  have h := (C5_analyze_failure initState Improvyu.uploadUIStart
    "engineer" true none "Failed to fetch" (by decide)).1
  rw [h]
  exact ⟨rfl, rfl⟩

/-- C6: an empty (after trimming) job-role input makes
`handleJobRoleSubmit` alert and return before issuing any request or
touching any state or UI element. -/
theorem C6_empty_role_guard (st : InterviewState) (ui : Improvyu.UploadUI)
    (jobRoleRaw : String) (hasResume : Bool)
    (resp : Improvyu.AnalyzeResult) (hrole : jsTrim jobRoleRaw = "") :
    Improvyu.handleJobRoleSubmit st ui jobRoleRaw hasResume resp =
      { state := st, ui := ui, requests := [], interviewStarted := false,
        alerted := true } := by
  simp [Improvyu.handleJobRoleSubmit, hrole]

/-- C6 witness: a whitespace-only job role at a concrete state. -/
theorem C6_empty_role_guard_witness :
    Improvyu.handleJobRoleSubmit initState Improvyu.uploadUIStart "  " true
        (Improvyu.AnalyzeResult.ok ["q0"]) =
      { state := initState, ui := Improvyu.uploadUIStart, requests := [],
        interviewStarted := false, alerted := true } :=
  C6_empty_role_guard initState Improvyu.uploadUIStart "  " true
    (Improvyu.AnalyzeResult.ok ["q0"]) (by decide)

/-- C4: `endInterview` (on either page) sends exactly `allUserAnswers` to
`/api/evaluate`; on an ok response it renders the four fields
`overallScore`, `strengths`, `weaknesses`, `suggestion`, each replaced by
`'N/A'` when absent or falsy; on a failed request it renders a failure
message instead of a report. -/
theorem C4_evaluate_report (answers : List String) (r : Improvyu.Report)
    (err : Option String) (msg : String) :
    (∀ resp,
      (Improvyu.endInterview answers resp).1 = Request.evaluate answers ∧
      (InterviewPage.endInterview answers resp).1 =
        Request.evaluate answers) ∧
    (Improvyu.endInterview answers (Improvyu.EvaluateResult.ok r)).2 =
      Improvyu.ReportView.rendered (jsOr r.overallScore "N/A")
        (jsOr r.strengths "N/A") (jsOr r.weaknesses "N/A")
        (jsOr r.suggestion "N/A") ∧
    (InterviewPage.endInterview answers (Improvyu.EvaluateResult.ok r)).2 =
      Improvyu.ReportView.rendered (jsOr r.overallScore "N/A")
        (jsOr r.strengths "N/A") (jsOr r.weaknesses "N/A")
        (jsOr r.suggestion "N/A") ∧
    (∃ m, (Improvyu.endInterview answers
        (Improvyu.EvaluateResult.notOk err)).2 =
      Improvyu.ReportView.failure m) ∧
    (∃ m, (Improvyu.endInterview answers
        (Improvyu.EvaluateResult.thrown msg)).2 =
      Improvyu.ReportView.failure m) ∧
    (∃ m, (InterviewPage.endInterview answers
        (Improvyu.EvaluateResult.notOk err)).2 =
      Improvyu.ReportView.failure m) ∧
    (∃ m, (InterviewPage.endInterview answers
        (Improvyu.EvaluateResult.thrown msg)).2 =
      Improvyu.ReportView.failure m) := by
  refine ⟨fun resp => ?_, rfl, rfl, ⟨_, rfl⟩, ⟨_, rfl⟩, ⟨_, rfl⟩, ⟨_, rfl⟩⟩
  cases resp <;> exact ⟨rfl, rfl⟩

/-- C7: on an animation frame with an active analyser, the target scale
is `1 + (avg / 128) * 0.7` for `avg` the mean of the frequency-bin byte
values, `smoothedVolume` is updated by
`smoothedVolume += (targetScale - smoothedVolume) * 0.2`, the avatar's
x, y and z scales all equal the new `smoothedVolume` (uniform scaling),
and the resulting scale is monotone in the measured average volume. -/
theorem C7_avatar_volume_sync (s : ℚ) (b1 b2 : List Nat) (_h1 : b1 ≠ [])
    (hmono : Improvyu.byteAvg b1 ≤ Improvyu.byteAvg b2) :
    Improvyu.byteAvg b1 = (b1.sum : ℚ) / b1.length ∧
    Improvyu.targetScale (Improvyu.byteAvg b1) =
      1 + Improvyu.byteAvg b1 / 128 * 0.7 ∧
    (Improvyu.animateStep s b1).1 =
      s + (Improvyu.targetScale (Improvyu.byteAvg b1) - s) * 0.2 ∧
    ((Improvyu.animateStep s b1).2.1 = (Improvyu.animateStep s b1).1 ∧
      (Improvyu.animateStep s b1).2.2.1 = (Improvyu.animateStep s b1).1 ∧
      (Improvyu.animateStep s b1).2.2.2 = (Improvyu.animateStep s b1).1) ∧
    (Improvyu.animateStep s b1).1 ≤ (Improvyu.animateStep s b2).1 := by
  refine ⟨rfl, rfl, rfl, ⟨rfl, rfl, rfl⟩, ?_⟩
  simp only [Improvyu.animateStep, Improvyu.targetScale]
  nlinarith [hmono]

/-- C2 counterexample: when the landing page's `/api/analyze` call
fails, the question list stored for the interview page is the hard-coded
front-end list `getDefaultQuestions` — non-empty although the backend
supplied no question — and the interview page likewise falls back to it
when no list was stored, so questions are produced locally. -/
theorem C2_local_fallback_counterexample :
    InterviewPage.handleLandingSubmit
        (InterviewPage.LandingAnalyzeResult.thrown "network error") =
      getDefaultQuestions ∧
    getDefaultQuestions ≠ [] ∧
    InterviewPage.startInterview none = getDefaultQuestions :=
  ⟨rfl, by decide, rfl⟩

/-- C2 (amended): every question asked originates from a backend
response except for the local fallback: the landing page stores the
backend's `questions` array when the response is ok and the array is
non-empty, and the hard-coded `getDefaultQuestions` list otherwise; the
interview page uses the stored list when present and `getDefaultQuestions`
otherwise. -/
theorem C2_question_source_amended
    (resp : InterviewPage.LandingAnalyzeResult)
    (stored : Option (List String)) :
    ((∃ qs, resp = InterviewPage.LandingAnalyzeResult.ok (some qs) ∧
        qs ≠ [] ∧ InterviewPage.handleLandingSubmit resp = qs) ∨
      InterviewPage.handleLandingSubmit resp = getDefaultQuestions) ∧
    InterviewPage.startInterview stored = stored.getD getDefaultQuestions := by
  constructor
  · match resp with
    | InterviewPage.LandingAnalyzeResult.ok (some qs) =>
      by_cases h : qs.length ≠ 0
      · refine Or.inl ⟨qs, rfl, by simpa using h, ?_⟩
        simp only [InterviewPage.handleLandingSubmit]
        rw [if_pos h]
      · obtain rfl : qs = [] := List.length_eq_zero.mp (not_not.mp h)
        exact Or.inr (by simp [InterviewPage.handleLandingSubmit])
    | InterviewPage.LandingAnalyzeResult.ok none => exact Or.inr rfl
    | InterviewPage.LandingAnalyzeResult.notOk e => exact Or.inr rfl
    | InterviewPage.LandingAnalyzeResult.thrown m => exact Or.inr rfl
  · cases stored <;> rfl

/-- Helper for C8: inserting at `n ≤ l.length` splits the list around
the new element, so no existing element is removed or reordered. -/
theorem insertIdx_eq_take_cons_drop (x : String) :
    ∀ (n : Nat) (l : List String), n ≤ l.length →
      List.insertIdx n x l = l.take n ++ x :: l.drop n
  | 0, l, _ => by simp
  | n + 1, [], h => by simp at h
  | n + 1, a :: l, h => by
    simpa [List.insertIdx_succ_cons] using
      insertIdx_eq_take_cons_drop x n l (by simpa using h)

/-- Helper for C8: the element sitting right after a prefix of known
length. -/
theorem get_append_cons_of_length (l₁ l₂ : List String) (q : String)
    (i : Nat) (hi : l₁.length = i) (hp : i < (l₁ ++ q :: l₂).length) :
    (l₁ ++ q :: l₂).get ⟨i, hp⟩ = q := by
  subst hi
  induction l₁ with
  | nil => rfl
  | cons a l ih =>
    exact ih (by simp only [List.length_append, List.length_cons]; omega)

/-- Helper for C8: what `askNextQuestion` asks, phrased through
equations on the state's fields so it can be applied without rewriting
under dependent indices. -/
theorem askNextQuestion_asked_of (st' : InterviewState) (l : List String)
    (i : Nat) (hqs : st'.initialQuestions = l)
    (hix : st'.currentQuestionIndex = i) (h : i < l.length) :
    (Improvyu.askNextQuestion st').2 =
      Improvyu.AskResult.asked (l.get ⟨i, h⟩) := by
  rcases st' with ⟨a, b, c, d⟩
  obtain rfl : a = l := hqs
  obtain rfl : d = i := hix
  simp [Improvyu.askNextQuestion, dif_pos h]

/-- C8: in the speech-recognition `onend` handler with a non-empty
transcript, an ok `/api/follow-up` reply whose `question` is non-empty
and not `'[NEXT_QUESTION]'` is inserted into `initialQuestions` at
`currentQuestionIndex` — so it is the next question asked — with every
existing question kept in order around it; a `'[NEXT_QUESTION]'` reply,
an empty or absent one, a non-ok response, or a rejected fetch leaves
`initialQuestions` and the index unchanged, and the next initial
question is asked. -/
theorem C8_followup_insertion (st : InterviewState) (t q : String)
    (e : Option String) (m : String) (ht : t ≠ "") (hq0 : q ≠ "")
    (hq1 : q ≠ "[NEXT_QUESTION]")
    (hidx : st.currentQuestionIndex ≤ st.initialQuestions.length) :
    ((Improvyu.onRecognitionEnd st t
          (Improvyu.FollowUpResult.ok (some q))).state.initialQuestions =
        st.initialQuestions.take st.currentQuestionIndex ++
          q :: st.initialQuestions.drop st.currentQuestionIndex ∧
      (Improvyu.onRecognitionEnd st t
          (Improvyu.FollowUpResult.ok (some q))).state.currentQuestionIndex =
        st.currentQuestionIndex ∧
      (Improvyu.askNextQuestion
          (Improvyu.onRecognitionEnd st t
            (Improvyu.FollowUpResult.ok (some q))).state).2 =
        Improvyu.AskResult.asked q) ∧
    (∀ resp ∈ [Improvyu.FollowUpResult.ok none,
        Improvyu.FollowUpResult.ok (some ""),
        Improvyu.FollowUpResult.ok (some "[NEXT_QUESTION]"),
        Improvyu.FollowUpResult.notOk e, Improvyu.FollowUpResult.thrown m],
      (Improvyu.onRecognitionEnd st t resp).state.initialQuestions =
        st.initialQuestions ∧
      (Improvyu.onRecognitionEnd st t resp).state.currentQuestionIndex =
        st.currentQuestionIndex ∧
      ∀ h : st.currentQuestionIndex < st.initialQuestions.length,
        (Improvyu.askNextQuestion
            (Improvyu.onRecognitionEnd st t resp).state).2 =
          Improvyu.AskResult.asked
            (st.initialQuestions.get ⟨st.currentQuestionIndex, h⟩)) := by
  have hmin : min st.currentQuestionIndex st.initialQuestions.length =
      st.currentQuestionIndex := Nat.min_eq_left hidx
  have hsplice :
      (Improvyu.onRecognitionEnd st t
          (Improvyu.FollowUpResult.ok (some q))).state.initialQuestions =
        st.initialQuestions.take st.currentQuestionIndex ++
          q :: st.initialQuestions.drop st.currentQuestionIndex := by
    simp only [Improvyu.onRecognitionEnd, if_neg ht]
    have hcond : ¬(q = "" ∨ q = "[NEXT_QUESTION]") := by
      rintro (h | h)
      · exact hq0 h
      · exact hq1 h
    simp only [if_neg hcond, hmin]
    exact insertIdx_eq_take_cons_drop q st.currentQuestionIndex
      st.initialQuestions hidx
  have hidx2 :
      (Improvyu.onRecognitionEnd st t
          (Improvyu.FollowUpResult.ok (some q))).state.currentQuestionIndex =
        st.currentQuestionIndex := by
    have hcond : ¬(q = "" ∨ q = "[NEXT_QUESTION]") := by
      rintro (h | h)
      · exact hq0 h
      · exact hq1 h
    simp only [Improvyu.onRecognitionEnd, if_neg ht, if_neg hcond]
  refine ⟨⟨hsplice, hidx2, ?_⟩, ?_⟩
  · have hp : st.currentQuestionIndex <
        (st.initialQuestions.take st.currentQuestionIndex ++
          q :: st.initialQuestions.drop st.currentQuestionIndex).length := by
      simp only [List.length_append, List.length_cons, List.length_take,
        List.length_drop]
      omega
    rw [askNextQuestion_asked_of _ _ _ hsplice hidx2 hp]
    congr 1
    exact get_append_cons_of_length _ _ _ _
      (by simp only [List.length_take]; omega) hp
  · intro resp hresp
    have hstep : ∀ st' : InterviewState,
        st'.initialQuestions = st.initialQuestions →
        st'.currentQuestionIndex = st.currentQuestionIndex →
        ∀ h : st.currentQuestionIndex < st.initialQuestions.length,
          (Improvyu.askNextQuestion st').2 =
            Improvyu.AskResult.asked
              (st.initialQuestions.get ⟨st.currentQuestionIndex, h⟩) := by
      intro st' hqs hix h
      exact askNextQuestion_asked_of st' _ _ hqs hix h
    fin_cases hresp
    · exact ⟨by simp [Improvyu.onRecognitionEnd, if_neg ht],
        by simp [Improvyu.onRecognitionEnd, if_neg ht],
        fun h => hstep _ (by simp [Improvyu.onRecognitionEnd, if_neg ht])
          (by simp [Improvyu.onRecognitionEnd, if_neg ht]) h⟩
    · exact ⟨by simp [Improvyu.onRecognitionEnd, if_neg ht],
        by simp [Improvyu.onRecognitionEnd, if_neg ht],
        fun h => hstep _ (by simp [Improvyu.onRecognitionEnd, if_neg ht])
          (by simp [Improvyu.onRecognitionEnd, if_neg ht]) h⟩
    · exact ⟨by simp [Improvyu.onRecognitionEnd, if_neg ht],
        by simp [Improvyu.onRecognitionEnd, if_neg ht],
        fun h => hstep _ (by simp [Improvyu.onRecognitionEnd, if_neg ht])
          (by simp [Improvyu.onRecognitionEnd, if_neg ht]) h⟩
    · exact ⟨by simp [Improvyu.onRecognitionEnd, if_neg ht],
        by simp [Improvyu.onRecognitionEnd, if_neg ht],
        fun h => hstep _ (by simp [Improvyu.onRecognitionEnd, if_neg ht])
          (by simp [Improvyu.onRecognitionEnd, if_neg ht]) h⟩
    · exact ⟨by simp [Improvyu.onRecognitionEnd, if_neg ht],
        by simp [Improvyu.onRecognitionEnd, if_neg ht],
        fun h => hstep _ (by simp [Improvyu.onRecognitionEnd, if_neg ht])
          (by simp [Improvyu.onRecognitionEnd, if_neg ht]) h⟩

/-- C8 witness: with questions `["a", "b"]` and index 1, a follow-up
`"follow"` is spliced in right at the index and is the next question
asked. -/
theorem C8_followup_insertion_witness :
    (Improvyu.onRecognitionEnd
        { initialQuestions := ["a", "b"], conversationHistory := [],
          allUserAnswers := [], currentQuestionIndex := 1 } "my answer"
        (Improvyu.FollowUpResult.ok (some "follow"))).state.initialQuestions =
      ["a", "follow", "b"] ∧
    (Improvyu.askNextQuestion
        (Improvyu.onRecognitionEnd
          { initialQuestions := ["a", "b"], conversationHistory := [],
            allUserAnswers := [], currentQuestionIndex := 1 } "my answer"
          (Improvyu.FollowUpResult.ok (some "follow"))).state).2 =
      Improvyu.AskResult.asked "follow" := by
  have h := C8_followup_insertion
    { initialQuestions := ["a", "b"], conversationHistory := [],
      allUserAnswers := [], currentQuestionIndex := 1 } "my answer" "follow"
    none "m" (by decide) (by decide) (by decide) (by decide)
  refine ⟨?_, h.1.2.2⟩
  rw [h.1.1]
  rfl

/-- Helper for C9: appending a `user` entry extends the user texts by
that text. -/
theorem userTexts_append_user (h : List Msg) (t : String) :
    userTexts (h ++ [⟨"user", t⟩]) = userTexts h ++ [t] := by
  simp [userTexts]

/-- Helper for C9: appending a `model` entry leaves the user texts
unchanged. -/
theorem userTexts_append_model (h : List Msg) (t : String) :
    userTexts (h ++ [⟨"model", t⟩]) = userTexts h := by
  simp [userTexts]

/-- Helper for C9: appending a `user` entry followed by a `model` entry
extends the user texts by the user text alone. -/
theorem userTexts_append_user_model (h : List Msg) (t qt : String) :
    userTexts (h ++ [⟨"user", t⟩, ⟨"model", qt⟩]) = userTexts h ++ [t] := by
  simp [userTexts]

/-- Helper for C9: `askNextQuestion` preserves the answers/history
correspondence. -/
theorem askNextQuestion_preserves_userTexts (st : InterviewState)
    (hinv : userTexts st.conversationHistory = st.allUserAnswers) :
    userTexts (Improvyu.askNextQuestion st).1.conversationHistory =
      (Improvyu.askNextQuestion st).1.allUserAnswers := by
  by_cases h : st.currentQuestionIndex < st.initialQuestions.length
  · simp [Improvyu.askNextQuestion, dif_pos h, userTexts_append_model, hinv]
  · simp [Improvyu.askNextQuestion, dif_neg h, hinv]

/-- Helper for C9: `askNextInitialQuestion` preserves the
answers/history correspondence. -/
theorem askNextInitialQuestion_preserves_userTexts (st : InterviewState)
    (hinv : userTexts st.conversationHistory = st.allUserAnswers) :
    userTexts
        (InterviewPage.askNextInitialQuestion st).1.conversationHistory =
      (InterviewPage.askNextInitialQuestion st).1.allUserAnswers := by
  by_cases h : st.currentQuestionIndex < st.initialQuestions.length
  · simp [InterviewPage.askNextInitialQuestion, dif_pos h,
      userTexts_append_model, hinv]
  · simp [InterviewPage.askNextInitialQuestion, dif_neg h, hinv]

/-- Helper for C9: the speech `onend` handler pushes the transcript onto
both `allUserAnswers` and `conversationHistory` (or neither). -/
theorem onRecognitionEnd_preserves_userTexts (st : InterviewState)
    (t : String) (r : Improvyu.FollowUpResult)
    (hinv : userTexts st.conversationHistory = st.allUserAnswers) :
    userTexts
        (Improvyu.onRecognitionEnd st t r).state.conversationHistory =
      (Improvyu.onRecognitionEnd st t r).state.allUserAnswers := by
  by_cases ht : t = ""
  · simp [Improvyu.onRecognitionEnd, ht, hinv]
  · cases r with
    | ok oq =>
      cases oq with
      | some q =>
        by_cases hq : q = "" ∨ q = "[NEXT_QUESTION]"
        · simp [Improvyu.onRecognitionEnd, if_neg ht, if_pos hq,
            userTexts_append_user, hinv]
        · simp [Improvyu.onRecognitionEnd, if_neg ht, if_neg hq,
            userTexts_append_user, hinv]
      | none =>
        simp [Improvyu.onRecognitionEnd, if_neg ht,
          userTexts_append_user, hinv]
    | notOk e =>
      simp [Improvyu.onRecognitionEnd, if_neg ht,
        userTexts_append_user, hinv]
    | thrown m =>
      simp [Improvyu.onRecognitionEnd, if_neg ht,
        userTexts_append_user, hinv]

/-- Helper for C9: `handleAnswerSubmission` pushes the trimmed answer
onto both `allUserAnswers` and `conversationHistory` (or neither). -/
theorem handleAnswerSubmission_preserves_userTexts (st : InterviewState)
    (a : String) (r : Improvyu.FollowUpResult)
    (hinv : userTexts st.conversationHistory = st.allUserAnswers) :
    userTexts
        (InterviewPage.handleAnswerSubmission st a r).state.conversationHistory =
      (InterviewPage.handleAnswerSubmission st a r).state.allUserAnswers := by
  by_cases ha : jsTrim a = ""
  · simp [InterviewPage.handleAnswerSubmission, ha, hinv]
  · cases r with
    | ok oq =>
      cases oq with
      | some q =>
        by_cases hq : q = "[NEXT_QUESTION]"
        · have h1 := askNextInitialQuestion_preserves_userTexts
            { st with
              allUserAnswers := st.allUserAnswers ++ [jsTrim a],
              conversationHistory :=
                st.conversationHistory ++ [⟨"user", jsTrim a⟩] }
            (by simp [userTexts_append_user, hinv])
          simpa [InterviewPage.handleAnswerSubmission, ha, hq] using h1
        · simp [InterviewPage.handleAnswerSubmission, ha, hq,
            userTexts_append_user_model, hinv]
      | none =>
        simp [InterviewPage.handleAnswerSubmission, ha,
          userTexts_append_user_model, hinv]
    | notOk e =>
      have h1 := askNextInitialQuestion_preserves_userTexts
        { st with
          allUserAnswers := st.allUserAnswers ++ [jsTrim a],
          conversationHistory :=
            st.conversationHistory ++ [⟨"user", jsTrim a⟩] }
        (by simp [userTexts_append_user, hinv])
      simpa [InterviewPage.handleAnswerSubmission, ha] using h1
    | thrown m =>
      have h1 := askNextInitialQuestion_preserves_userTexts
        { st with
          allUserAnswers := st.allUserAnswers ++ [jsTrim a],
          conversationHistory :=
            st.conversationHistory ++ [⟨"user", jsTrim a⟩] }
        (by simp [userTexts_append_user, hinv])
      simpa [InterviewPage.handleAnswerSubmission, ha] using h1

/-- Helper for C9: every handler invocation preserves the
answers/history correspondence. -/
theorem stepEvent_preserves_userTexts (st : InterviewState) (e : Event)
    (hinv : userTexts st.conversationHistory = st.allUserAnswers) :
    userTexts (stepEvent st e).conversationHistory =
      (stepEvent st e).allUserAnswers := by
  cases e with
  | submitJobRole j hr r =>
    by_cases hj : jsTrim j = ""
    · simp [stepEvent, Improvyu.handleJobRoleSubmit, hj, hinv]
    · cases r <;>
        simp [stepEvent, Improvyu.handleJobRoleSubmit, hj, hinv]
  | startAsk => exact askNextQuestion_preserves_userTexts st hinv
  | recordingEnd t r =>
    exact askNextQuestion_preserves_userTexts _
      (onRecognitionEnd_preserves_userTexts st t r hinv)
  | askInitial => exact askNextInitialQuestion_preserves_userTexts st hinv
  | answerSubmit a r =>
    exact handleAnswerSubmission_preserves_userTexts st a r hinv

/-- Helper for C9: the correspondence is preserved along any event
sequence. -/
theorem runEvents_preserves_userTexts (es : List Event) :
    ∀ st : InterviewState,
      userTexts st.conversationHistory = st.allUserAnswers →
      userTexts (runEvents st es).conversationHistory =
        (runEvents st es).allUserAnswers := by
  induction es with
  | nil => exact fun st h => h
  | cons e es ih =>
    exact fun st h => ih _ (stepEvent_preserves_userTexts st e h)

/-- C9: after any sequence of handler invocations from the initial
state, the texts of the `role = 'user'` entries of `conversationHistory`
are exactly `allUserAnswers`, position by position; in particular the
number of user entries equals the length of `allUserAnswers`. -/
theorem C9_answers_history_invariant (es : List Event) :
    userTexts (runEvents initState es).conversationHistory =
      (runEvents initState es).allUserAnswers ∧
    ((runEvents initState es).conversationHistory.filter
        (fun msg => msg.role == "user")).length =
      (runEvents initState es).allUserAnswers.length := by
  have h := runEvents_preserves_userTexts es initState rfl
  refine ⟨h, ?_⟩
  calc ((runEvents initState es).conversationHistory.filter
          (fun msg => msg.role == "user")).length
      = (userTexts (runEvents initState es).conversationHistory).length :=
        (List.length_map _ _).symm
    _ = (runEvents initState es).allUserAnswers.length := by rw [h]

/-- C10: empty submissions are no-ops: `handleAnswerSubmission` with a
whitespace-only answer changes nothing, logs nothing and issues no
request; the speech `onend` handler with an empty transcript records
nothing and skips `/api/follow-up`, and the scheduled `askNextQuestion`
proceeds on the untouched state. -/
theorem C10_empty_submission_noop (st : InterviewState)
    (answerRaw t : String) (resp : Improvyu.FollowUpResult)
    (ha : jsTrim answerRaw = "") (htr : t = "") :
    InterviewPage.handleAnswerSubmission st answerRaw resp =
      { state := st, requests := [], logged := [] } ∧
    Improvyu.onRecognitionEnd st t resp =
      { state := st, requests := [], logged := [] } ∧
    Improvyu.askNextQuestion (Improvyu.onRecognitionEnd st t resp).state =
      Improvyu.askNextQuestion st := by
  subst htr
  refine ⟨?_, ?_, ?_⟩
  · simp [InterviewPage.handleAnswerSubmission, ha]
  · simp [Improvyu.onRecognitionEnd]
  · simp [Improvyu.onRecognitionEnd]

/-- C10 witness: a whitespace answer and an empty transcript at a
concrete one-question state. -/
theorem C10_empty_submission_noop_witness :
    InterviewPage.handleAnswerSubmission
        { initState with initialQuestions := ["a"] } " "
        (Improvyu.FollowUpResult.ok (some "f")) =
      { state := { initState with initialQuestions := ["a"] },
        requests := [], logged := [] } ∧
    Improvyu.onRecognitionEnd
        { initState with initialQuestions := ["a"] } ""
        (Improvyu.FollowUpResult.ok (some "f")) =
      { state := { initState with initialQuestions := ["a"] },
        requests := [], logged := [] } := by
  have h := C10_empty_submission_noop
    { initState with initialQuestions := ["a"] } " " ""
    (Improvyu.FollowUpResult.ok (some "f")) (by decide) rfl
  exact ⟨h.1, h.2.1⟩

/-- C7 witness: a concrete frame (average 64 out of a single bin) yields
smoothed volume 107/100 from 1, and a louder frame scales at least as
much. -/
theorem C7_avatar_volume_sync_witness :
    (0.2 : ℚ) = 1 / 5 ∧
    (Improvyu.animateStep 1 [64]).1 = 107 / 100 ∧
    (Improvyu.animateStep 1 [64]).1 ≤ (Improvyu.animateStep 1 [128]).1 := by
  have h := C7_avatar_volume_sync 1 [64] [128] (by decide)
    (by norm_num [Improvyu.byteAvg])
  refine ⟨by norm_num, ?_, h.2.2.2.2⟩
  rw [h.2.2.1]
  norm_num [Improvyu.targetScale, Improvyu.byteAvg]
